import Mathlib

/-!
# Verification of the vault-unseal worker and configuration logic

Shallow embedding of the `tsuiio/vault-unseal` source:
* `src/worker.rs` — the unseal attempt (`UnsealWorker::unseal`, `get_keys`)
  and the poll loop (`UnsealWorker::run`);
* `src/shoutdown.rs` — cooperative cancellation, modelled through an
  oracle deciding races of `tokio::select!`;
* `src/lib.rs` — the orchestrator `unseal(cfg)`;
* `src/conf.rs` — the `ExternalConfig → InternalConfig` conversion;
* `src/bitwarden.rs` — the secret provider client.
-/

deriving instance DecidableEq for Except

namespace VaultUnseal

/-- Server status as returned by `vaultrs::sys::status` and matched in
`UnsealWorker::run` (`STANDBY | OK`, `SEALED`, catch-all `_`). -/
inductive ServerStatus where
  | ok
  | standby
  | sealed_
  | uninitialized
  | other
deriving Repr, DecidableEq

/-- Result of one `vaultrs::sys::unseal` submission, the fields the worker
reads (`res.sealed`, `res.threshold`) plus `progress`. -/
structure UnsealResponse where
  sealedFlag : Bool
  threshold : Nat
  progress : Nat
deriving Repr, DecidableEq

/-- Outcome classification of one unseal attempt, following the distinct
`Report` values produced in `worker.rs`. -/
inductive AttemptError where
  /-- `get_secrets` itself failed (propagated as `Error::UnsealError`). -/
  | providerError
  /-- `get_keys`: "no unseal keys found from bitwarden". -/
  | noKeys
  /-- `vaultrs::sys::unseal` transport failure (`Error::ClientError`). -/
  | transport
  /-- "not enough keys to unseal the vault" (threshold exceeds key count). -/
  | insufficientShares
  /-- "failed to unseal the vaule node" (last key left node sealed). -/
  | failedToUnseal
deriving Repr, DecidableEq

/-- Network calls a worker can make, recorded as a trace. -/
inductive NetCall where
  | statusCheck
  | fetchShares
  | submitShare (key : String)
deriving Repr, DecidableEq

/-- The `for key in keys.iter().take(keys.len() - 1)` loop of
`UnsealWorker::unseal`: submit each of the given keys in order, indexing
node responses by submission number.  Returns the submitted keys and
`some outcome` on early return, `none` when the loop ran to completion.

Mirrors, per iteration: transport error propagation (`?`), then
`res.threshold > keys.len()` aborting with insufficient shares, then
`!res.sealed` returning success. -/
def submitFirst (total : Nat) (respond : Nat → Except Unit UnsealResponse) :
    List String → Nat → List String × Option (Except AttemptError Unit)
  | [], _ => ([], none)
  | k :: rest, i =>
    match respond i with
    | .error _ => ([k], some (.error .transport))
    | .ok res =>
      if total < res.threshold then
        ([k], some (.error .insufficientShares))
      else if res.sealedFlag = false then
        ([k], some (.ok ()))
      else
        let r := submitFirst total respond rest (i + 1)
        (k :: r.1, r.2)

/-- Body of `UnsealWorker::unseal` after `get_keys` returned a non-empty
`keys`: run the loop over all keys but the last (`keys.dropLast`, which is
`keys.iter().take(keys.len() - 1)`), then submit the last key
(`keys.last().unwrap()`) and fail with `failedToUnseal` if the node is
still sealed.  Returns the submission trace and the attempt outcome. -/
def unsealCore (keys : List String) (respond : Nat → Except Unit UnsealResponse) :
    List String × Except AttemptError Unit :=
  match submitFirst keys.length respond keys.dropLast 0 with
  | (subs, some out) => (subs, out)
  | (subs, none) =>
    match respond (keys.length - 1) with
    | .error _ => (subs ++ [keys.getLastD ""], .error .transport)
    | .ok res =>
      if res.sealedFlag then (subs ++ [keys.getLastD ""], .error .failedToUnseal)
      else (subs ++ [keys.getLastD ""], .ok ())

/-- `UnsealWorker::unseal` including `get_keys`: the provider is queried
(`get_secrets`) first; a provider failure or an empty key list aborts the
attempt before any submission.  The trace starts with the provider fetch. -/
def workerUnseal (fetch : Except Unit (List String))
    (respond : Nat → Except Unit UnsealResponse) :
    List NetCall × Except AttemptError Unit :=
  match fetch with
  | .error _ => ([.fetchShares], .error .providerError)
  | .ok keys =>
    if keys.isEmpty then ([.fetchShares], .error .noKeys)
    else
      let r := unsealCore keys respond
      (.fetchShares :: r.1.map .submitShare, r.2)

/-- Per-worker environment: status-check results per tick, provider fetch
results per tick (`get_secrets` is called at most once per tick, inside the
unseal attempt), and submission results per tick and submission index. -/
structure WorkerEnv where
  status : Nat → Except Unit ServerStatus
  shares : Nat → Except Unit (List String)
  respond : Nat → Nat → Except Unit UnsealResponse

/-- Network calls of one tick-branch body of `UnsealWorker::run`: the status
check, then — only when the node reports `SEALED` — one unseal attempt.
`STANDBY | OK`, the catch-all statuses, and a failed status check all just
`continue`; a failed attempt is logged and also falls through to `continue`. -/
def tickBody (env : WorkerEnv) (t : Nat) : List NetCall :=
  match env.status t with
  | .error _ => [.statusCheck]
  | .ok s =>
    match s with
    | .standby | .ok => [.statusCheck]
    | .sealed_ => .statusCheck :: (workerUnseal (env.shares t) (env.respond t)).1
    | _ => [.statusCheck]

/-- The `loop { tokio::select! { ... } }` of `UnsealWorker::run`.

`shut k` says whether the cancellation token is already cancelled when the
select of iteration `k` is entered.  The first `interval.tick()` completes
immediately, so at iteration `0` a cancelled token races an already-ready
tick and `tokio::select!` picks pseudo-randomly: `choice k = true` resolves
the race for the shutdown branch, `false` for the tick branch.  At later
iterations a cancelled token is ready before the next tick fires, so the
shutdown branch wins outright.  `fuel` bounds the number of iterations
modelled; the Bool result is `true` when the loop exited via `break` and
`false` when fuel ran out with the loop still live. -/
def runWorker (env : WorkerEnv) (shut choice : Nat → Bool) :
    Nat → Nat → List NetCall × Bool
  | _, 0 => ([], false)
  | k, fuel + 1 =>
    if shut k then
      if k = 0 ∧ choice k = false then
        let r := runWorker env shut choice (k + 1) fuel
        (tickBody env k ++ r.1, r.2)
      else ([], true)
    else
      let r := runWorker env shut choice (k + 1) fuel
      (tickBody env k ++ r.1, r.2)

/-- Counting helpers over network-call traces. -/
def NetCall.isFetch : NetCall → Bool
  | .fetchShares => true
  | _ => false

def NetCall.isStatus : NetCall → Bool
  | .statusCheck => true
  | _ => false

def NetCall.isSubmit : NetCall → Bool
  | .submitShare _ => true
  | _ => false

def countFetch (l : List NetCall) : Nat := l.countP (fun c => c.isFetch)

def countStatus (l : List NetCall) : Nat := l.countP (fun c => c.isStatus)

def countSubmit (l : List NetCall) : Nat := l.countP (fun c => c.isSubmit)

/-- Number of ticks in `[k, k + fuel)` at which the status call reports
`SEALED` — the ticks that trigger an unseal attempt. -/
def sealedTicks (env : WorkerEnv) : Nat → Nat → Nat
  | _, 0 => 0
  | k, fuel + 1 =>
    (if env.status k = .ok .sealed_ then 1 else 0) + sealedTicks env (k + 1) fuel

/-! ## Configuration (`src/conf.rs`) -/

/-- `conf.rs` `LogLevel`. -/
inductive LogLevel where
  | info
  | warn
  | debug
  | error
  | trace
deriving Repr, DecidableEq

/-- `conf.rs` `VaultNode` (the `Url` is modelled as a string). -/
structure VaultNode where
  host : String
deriving Repr, DecidableEq

/-- `conf.rs` `ExternalBitwarden` (serde-renamed fields `host`, `token`,
`secret_ids`; `Uuid` modelled as a string). -/
structure ExternalBitwarden where
  bw_host : Option String
  bw_token : Option String
  bw_secret_ids : Option (List String)
deriving Repr, DecidableEq

/-- `conf.rs` `ExternalLog`. -/
structure ExternalLog where
  level : Option LogLevel
  json : Option Bool
deriving Repr, DecidableEq

/-- `conf.rs` `ExternalConfig`. -/
structure ExternalConfig where
  vault_nodes : Option (List VaultNode)
  bitwarden : ExternalBitwarden
  check_interval : Option Nat
  log : ExternalLog
deriving Repr, DecidableEq

/-- `conf.rs` `Bitwarden`. -/
structure Bitwarden where
  host : String
  token : String
  secret_ids : List String
deriving Repr, DecidableEq

/-- `conf.rs` `Log`. -/
structure Log where
  level : LogLevel
  json : Bool
deriving Repr, DecidableEq

/-- `conf.rs` `InternalConfig`. -/
structure InternalConfig where
  vault_nodes : List VaultNode
  bitwarden : Bitwarden
  check_interval : Nat
  log : Log
deriving Repr, DecidableEq

/-- Error variants of `conf.rs` with the `Report` attachment message. -/
inductive ConfError where
  | invalidVaultNodeUrl (msg : String)
  | missingBitwardenConfig (msg : String)
deriving Repr, DecidableEq

/-- Result of `InternalConfig::try_from`, with an explicit `panic` outcome
for the `unreachable!()` arm and the `Option::unwrap` calls. -/
inductive ConvResult where
  | ok (c : InternalConfig)
  | err (e : ConfError)
  | panic
deriving Repr, DecidableEq

/-- `impl TryFrom<ExternalConfig> for InternalConfig` (`conf.rs`).

Faithful to the source control flow: first the
`vault_nodes.is_none() || ...is_empty()` guard, then the match on
`(bw_host, bw_token, bw_secret_ids)` with its arms in source order —
including the `_ => unreachable!()` arm, modelled as `panic` — and finally
the construction of `InternalConfig`, whose `check_interval.unwrap()`,
`log.level.unwrap()` and `log.json.unwrap()` panic when the field is
absent. -/
def tryFromExternal (config : ExternalConfig) : ConvResult :=
  if config.vault_nodes = none ∨ config.vault_nodes.getD [] = [] then
    .err (.invalidVaultNodeUrl "at least one vault node must be specified")
  else
    match config.bitwarden.bw_host, config.bitwarden.bw_token,
        config.bitwarden.bw_secret_ids with
    | some host, some token, some secret_ids =>
      match config.check_interval, config.log.level, config.log.json with
      | some ci, some lv, some js =>
        .ok ⟨config.vault_nodes.getD [], ⟨host, token, secret_ids⟩, ci, ⟨lv, js⟩⟩
      | _, _, _ => .panic
    | some _, _, some secret_ids =>
      if secret_ids = [] then
        .err (.missingBitwardenConfig "bitwarden secret ids cannot be empty")
      else
        .err (.missingBitwardenConfig "bitwarden token must be specified")
    | some _, some _, none =>
      .err (.missingBitwardenConfig "bitwarden secret ids must be specified")
    | _, _, _ => .panic

/-! ## Provider client (`src/bitwarden.rs`) and orchestrator (`src/lib.rs`) -/

/-- `BitwardenSecret` as constructed by `BitwardenSecret::new`: it stores
the token-authenticated client and the secret ids.  `ClientSettings` is
built by `ClientSettings::default()` — the configured bitwarden host is not
passed in.  Construction performs a login but no secret fetch. -/
structure BitwardenSecret where
  token : String
  secret_ids : List String
deriving Repr, DecidableEq

def bitwardenNew (token : String) (secret_ids : List String) : BitwardenSecret :=
  ⟨token, secret_ids⟩

/-- Network calls performed by `BitwardenSecret::new`: only
`login_access_token`; `get_secrets` is not called at construction. -/
def bitwardenNewCalls : List NetCall := []

/-- The worker-construction loop of `unseal` in `lib.rs`: each
`UnsealWorker::new` is tried in node order; the first failure aborts with
that error (`?`), otherwise the list of built workers (identified by host)
is returned.  Handles are lazy futures: nothing runs during this loop. -/
def buildWorkers (construct : String → Except Unit Unit) :
    List String → Except Unit (List String)
  | [] => .ok []
  | h :: rest =>
    match construct h with
    | .error e => .error e
    | .ok _ =>
      match buildWorkers construct rest with
      | .error e => .error e
      | .ok ws => .ok (h :: ws)

/-- External collaborators of the orchestrator, indexed so that per-node
behaviour can differ by host. -/
structure ExtEnv where
  construct : String → Except Unit Unit
  provider : String → List String → Nat → Except Unit (List String)
  status : String → Nat → Except Unit ServerStatus
  respond : String → Nat → Nat → Except Unit UnsealResponse
  choice : String → Nat → Bool
  shut : Nat → Bool

/-- `unseal(cfg)` of `lib.rs`: builds the shared `BitwardenSecret` from the
configured token and secret ids, constructs one worker per configured vault
node (aborting on the first construction error, before any worker runs),
then runs every worker via `join_all`.  Returns the run result of each
started worker and the overall outcome.  (`check_interval` only paces the
timer and does not appear in the discrete trace; a `BitwardenSecret::new`
login failure, which would abort even earlier, is not modelled.) -/
def unsealOrch (cfg : InternalConfig) (env : ExtEnv) (fuel : Nat) :
    List (List NetCall × Bool) × Except Unit Unit :=
  let bw := bitwardenNew cfg.bitwarden.token cfg.bitwarden.secret_ids
  let hosts := cfg.vault_nodes.map VaultNode.host
  match buildWorkers env.construct hosts with
  | .error e => ([], .error e)
  | .ok ws =>
    (ws.map fun h =>
      runWorker
        ⟨env.status h, fun t => env.provider bw.token bw.secret_ids t, env.respond h⟩
        env.shut (env.choice h) 0 fuel,
     .ok ())

/-! ## Helper lemmas on the submission loop -/

lemma dropLast_append_getLastD (l : List String) (d : String) (h : l ≠ []) :
    l.dropLast ++ [l.getLastD d] = l := by
  induction l generalizing d with
  | nil => exact absurd rfl h
  | cons a rest ih =>
    cases rest with
    | nil => rfl
    | cons b t =>
      have h2 := ih a (by simp)
      simpa [List.dropLast, List.getLastD] using h2

lemma submitFirst_take (total : Nat) (respond : Nat → Except Unit UnsealResponse)
    (ks : List String) : ∀ i : Nat,
    (submitFirst total respond ks i).1
      = ks.take (submitFirst total respond ks i).1.length := by
  induction ks with
  | nil => intro i; simp [submitFirst]
  | cons k rest ih =>
    intro i
    cases hr : respond i with
    | error e => simp [submitFirst, hr]
    | ok res =>
      by_cases ht : total < res.threshold
      · simp [submitFirst, hr, ht]
      · by_cases hs : res.sealedFlag = false
        · simp [submitFirst, hr, ht, hs]
        · have h := ih (i + 1)
          simp only [submitFirst, hr, ht, hs, if_false, if_neg, List.length_cons,
            List.take_succ_cons]
          exact congrArg (k :: ·) h

lemma submitFirst_len_le (total : Nat) (respond : Nat → Except Unit UnsealResponse)
    (ks : List String) (i : Nat) :
    (submitFirst total respond ks i).1.length ≤ ks.length := by
  have h := submitFirst_take total respond ks i
  have h2 : (submitFirst total respond ks i).1.length
      = min (submitFirst total respond ks i).1.length ks.length := by
    conv_lhs => rw [h]
    exact List.length_take _ _
  omega

lemma submitFirst_none (total : Nat) (respond : Nat → Except Unit UnsealResponse)
    (ks : List String) : ∀ i : Nat,
    (submitFirst total respond ks i).2 = none →
    (submitFirst total respond ks i).1 = ks := by
  induction ks with
  | nil => intro i _; rfl
  | cons k rest ih =>
    intro i hnone
    cases hr : respond i with
    | error e => simp [submitFirst, hr] at hnone
    | ok res =>
      by_cases ht : total < res.threshold
      · simp [submitFirst, hr, ht] at hnone
      · by_cases hs : res.sealedFlag = false
        · simp [submitFirst, hr, ht, hs] at hnone
        · have hnone' : (submitFirst total respond rest (i + 1)).2 = none := by
            simpa [submitFirst, hr, ht, hs] using hnone
          have h := ih (i + 1) hnone'
          simp [submitFirst, hr, ht, hs, h]

lemma submitFirst_all_pass (total : Nat) (respond : Nat → Except Unit UnsealResponse)
    (ks : List String) : ∀ i : Nat,
    (∀ j, j < ks.length → ∃ r, respond (i + j) = Except.ok r ∧
      r.sealedFlag = true ∧ r.threshold ≤ total) →
    submitFirst total respond ks i = (ks, none) := by
  induction ks with
  | nil => intro i _; rfl
  | cons k rest ih =>
    intro i h
    obtain ⟨r, hr, hsl, hth⟩ := h 0 (by simp)
    rw [Nat.add_zero] at hr
    have hrec := ih (i + 1) (fun j hj => by
      obtain ⟨r', hr', h1, h2⟩ := h (j + 1) (by simpa using Nat.succ_lt_succ hj)
      exact ⟨r', by rw [← hr']; congr 1; omega, h1, h2⟩)
    simp [submitFirst, hr, Nat.not_lt.mpr hth, hsl, hrec]

lemma submitFirst_first_insufficient (total : Nat)
    (respond : Nat → Except Unit UnsealResponse) (ks : List String) :
    ∀ (p i : Nat) (rp : UnsealResponse), p < ks.length →
    (∀ j, j < p → ∃ r, respond (i + j) = Except.ok r ∧
      r.sealedFlag = true ∧ r.threshold ≤ total) →
    respond (i + p) = Except.ok rp → total < rp.threshold →
    submitFirst total respond ks i
      = (ks.take (p + 1), some (Except.error AttemptError.insufficientShares)) := by
  induction ks with
  | nil => intro p i rp hp; exact absurd hp (by simp)
  | cons k rest ih =>
    intro p i rp hp hpass hr hth
    cases p with
    | zero =>
      rw [Nat.add_zero] at hr
      simp [submitFirst, hr, hth]
    | succ q =>
      obtain ⟨r0, hr0, hsl0, hth0⟩ := hpass 0 (by omega)
      rw [Nat.add_zero] at hr0
      have hrec := ih q (i + 1) rp (by simpa using hp)
        (fun j hj => by
          obtain ⟨r', hr', h1, h2⟩ := hpass (j + 1) (by omega)
          exact ⟨r', by rw [← hr']; congr 1; omega, h1, h2⟩)
        (by rw [← hr]; congr 1; omega) hth
      simp [submitFirst, hr0, Nat.not_lt.mpr hth0, hsl0, hrec, List.take_succ_cons]

lemma submitFirst_first_unsealed (total : Nat)
    (respond : Nat → Except Unit UnsealResponse) (ks : List String) :
    ∀ (p i : Nat) (rp : UnsealResponse), p < ks.length →
    (∀ j, j < p → ∃ r, respond (i + j) = Except.ok r ∧
      r.sealedFlag = true ∧ r.threshold ≤ total) →
    respond (i + p) = Except.ok rp → rp.threshold ≤ total → rp.sealedFlag = false →
    submitFirst total respond ks i
      = (ks.take (p + 1), some (Except.ok ())) := by
  induction ks with
  | nil => intro p i rp hp; exact absurd hp (by simp)
  | cons k rest ih =>
    intro p i rp hp hpass hr hth hs
    cases p with
    | zero =>
      rw [Nat.add_zero] at hr
      simp [submitFirst, hr, Nat.not_lt.mpr hth, hs]
    | succ q =>
      obtain ⟨r0, hr0, hsl0, hth0⟩ := hpass 0 (by omega)
      rw [Nat.add_zero] at hr0
      have hrec := ih q (i + 1) rp (by simpa using hp)
        (fun j hj => by
          obtain ⟨r', hr', h1, h2⟩ := hpass (j + 1) (by omega)
          exact ⟨r', by rw [← hr']; congr 1; omega, h1, h2⟩)
        (by rw [← hr]; congr 1; omega) hth hs
      simp [submitFirst, hr0, Nat.not_lt.mpr hth0, hsl0, hrec, List.take_succ_cons]

/-! ## Claim C2 -/

/-- Node responses for the C2 counterexample: first submission sealed with
threshold 2, second submission unsealed with threshold 3. -/
def respLateHighThreshold : Nat → Except Unit UnsealResponse := fun i =>
  if i = 0 then .ok ⟨true, 2, 1⟩ else .ok ⟨false, 3, 2⟩

/-- C2 counterexample: over N = 2 shares, the second (final) submission
returns threshold 3 > 2, yet the attempt does not halt with
`insufficientShares` — it returns success, because `UnsealWorker::unseal`
only checks the threshold after the first N-1 submissions, never after the
final one. -/
theorem c2_threshold_unchecked_on_last :
    respLateHighThreshold 1 = Except.ok ⟨false, 3, 2⟩ ∧
    2 < (3 : Nat) ∧
    unsealCore ["a", "b"] respLateHighThreshold = (["a", "b"], Except.ok ()) :=
  ⟨rfl, by omega, by decide⟩

/-- C2 (amended): if one of the first N-1 submissions — where N is the
number of available shares — returns a result with threshold > N, and the
submissions before it returned sealed results with thresholds at most N,
then the attempt halts at that submission with `insufficientShares` and no
further share is submitted (the trace is exactly the first i+1 shares).
The final (Nth) submission's threshold is not checked. -/
theorem c2_insufficient_shares_halt (keys : List String)
    (respond : Nat → Except Unit UnsealResponse) (i : Nat) (rp : UnsealResponse)
    (hi : i < keys.length - 1)
    (hpass : ∀ j, j < i → ∃ r, respond j = Except.ok r ∧
      r.sealedFlag = true ∧ r.threshold ≤ keys.length)
    (hr : respond i = Except.ok rp) (hth : keys.length < rp.threshold) :
    unsealCore keys respond
      = (keys.take (i + 1), Except.error AttemptError.insufficientShares) := by
  have hlen : keys.dropLast.length = keys.length - 1 := List.length_dropLast keys
  have hsf := submitFirst_first_insufficient keys.length respond keys.dropLast i 0 rp
    (by omega) (fun j hj => by simpa using hpass j hj) (by simpa using hr) hth
  have htake : keys.dropLast.take (i + 1) = keys.take (i + 1) := by
    rw [List.dropLast_eq_take, List.take_take]
    congr 1
    omega
  simp [unsealCore, hsf, htake]

/-- Witness responses: second of three submissions reports threshold 5. -/
def respThresholdFive : Nat → Except Unit UnsealResponse := fun i =>
  if i = 0 then .ok ⟨true, 2, 1⟩ else .ok ⟨true, 5, 1⟩

theorem c2_insufficient_shares_halt_witness :
    unsealCore ["a", "b", "c"] respThresholdFive
      = (["a", "b"], Except.error AttemptError.insufficientShares) := by
  have h := c2_insufficient_shares_halt ["a", "b", "c"] respThresholdFive 1 ⟨true, 5, 1⟩
    (by decide)
    (fun j hj => by
      interval_cases j
      exact ⟨⟨true, 2, 1⟩, rfl, rfl, by decide⟩)
    rfl (by decide)
  rw [h]
  decide

/-! ## Claim C3 -/

/-- C3: for an attempt over N ≥ 1 available shares in which every
submission's result arrives and carries a threshold at most N:
(a) at most N shares are submitted and the submitted shares are exactly a
prefix of the provider's sequence (order preserved); and
(b) if submission i is the first whose result has sealed=false, the
attempt returns success having submitted exactly shares 0..i — the
remaining shares are never submitted. -/
theorem c3_ordered_early_success (keys : List String)
    (respond : Nat → Except Unit UnsealResponse) (hne : keys ≠ [])
    (hok : ∀ j, j < keys.length → ∃ r, respond j = Except.ok r ∧
      r.threshold ≤ keys.length) :
    ((unsealCore keys respond).1.length ≤ keys.length ∧
      (unsealCore keys respond).1
        = keys.take (unsealCore keys respond).1.length) ∧
    (∀ i, i < keys.length →
      (∀ j, j < i → ∀ r, respond j = Except.ok r → r.sealedFlag = true) →
      (∀ r, respond i = Except.ok r → r.sealedFlag = false) →
      unsealCore keys respond = (keys.take (i + 1), Except.ok ())) := by
  have hlen : keys.dropLast.length = keys.length - 1 := List.length_dropLast keys
  have hpos : 0 < keys.length := List.length_pos.mpr hne
  constructor
  · -- prefix shape and length bound, independent of the responses
    rcases hmatch : submitFirst keys.length respond keys.dropLast 0 with ⟨subs, out⟩
    have htake := submitFirst_take keys.length respond keys.dropLast 0
    have hle := submitFirst_len_le keys.length respond keys.dropLast 0
    rw [hmatch] at htake hle
    dsimp only at htake hle
    cases out with
    | some o =>
      have hsub : subs = keys.take subs.length := by
        conv_lhs => rw [htake]
        rw [List.dropLast_eq_take, List.take_take]
        congr 1
        omega
      have hcore : unsealCore keys respond = (subs, o) := by
        simp [unsealCore, hmatch]
      rw [hcore]
      exact ⟨by dsimp only; omega, hsub⟩
    | none =>
      have hsubs : subs = keys.dropLast := by
        have h := submitFirst_none keys.length respond keys.dropLast 0
        rw [hmatch] at h
        exact h rfl
      have hfull : subs ++ [keys.getLast?.getD ""] = keys := by
        rw [hsubs, ← List.getLastD_eq_getLast?]
        exact dropLast_append_getLastD keys "" hne
      have htr : (unsealCore keys respond).1 = keys := by
        rcases hlast : respond (keys.length - 1) with e | res
        · simp [unsealCore, hmatch, hlast, hfull]
        · by_cases hsl : res.sealedFlag
          · simp [unsealCore, hmatch, hlast, hsl, hfull]
          · simp [unsealCore, hmatch, hlast, hsl, hfull]
      rw [htr]
      exact ⟨Nat.le_refl _, (List.take_length keys).symm⟩
  · intro i hi hbefore hat
    by_cases hilast : i < keys.length - 1
    · -- the unsealing response arrives strictly before the final share
      obtain ⟨rp, hrp, hthp⟩ := hok i hi
      have hsp := hat rp hrp
      have hsf := submitFirst_first_unsealed keys.length respond keys.dropLast i 0 rp
        (by omega)
        (fun j hj => by
          obtain ⟨r', hr', hth'⟩ := hok j (by omega)
          exact ⟨r', by simpa using hr', hbefore j hj r' hr', hth'⟩)
        (by simpa using hrp) hthp hsp
      have htake : keys.dropLast.take (i + 1) = keys.take (i + 1) := by
        rw [List.dropLast_eq_take, List.take_take]
        congr 1
        omega
      simp [unsealCore, hsf, htake]
    · -- the unsealing response is the final share's
      have hieq : i = keys.length - 1 := by omega
      have hsf := submitFirst_all_pass keys.length respond keys.dropLast 0
        (fun j hj => by
          obtain ⟨r', hr', hth'⟩ := hok j (by omega)
          exact ⟨r', by simpa using hr', hbefore j (by omega) r' hr', hth'⟩)
      obtain ⟨rl, hrl, _⟩ := hok i hi
      have hsl := hat rl hrl
      rw [hieq] at hrl
      have hfull : keys.dropLast ++ [keys.getLast?.getD ""] = keys := by
        rw [← List.getLastD_eq_getLast?]
        exact dropLast_append_getLastD keys "" hne
      have htake : keys.take (i + 1) = keys := by
        have h1 : i + 1 = keys.length := by omega
        rw [h1, List.take_length]
      simp [unsealCore, hsf, hrl, hsl, hfull, htake]

/-- Witness responses: submissions 0 sealed, 1 unsealed, others sealed. -/
def respUnsealAtSecond : Nat → Except Unit UnsealResponse := fun i =>
  if i = 1 then .ok ⟨false, 2, 2⟩ else .ok ⟨true, 2, 1⟩

theorem c3_ordered_early_success_witness :
    unsealCore ["a", "b", "c"] respUnsealAtSecond = (["a", "b"], Except.ok ()) := by
  have h := (c3_ordered_early_success ["a", "b", "c"] respUnsealAtSecond
    (by decide)
    (fun j hj => by
      by_cases h1 : j = 1
      · exact ⟨⟨false, 2, 2⟩, by rw [h1]; rfl, by decide⟩
      · exact ⟨⟨true, 2, 1⟩, by simp [respUnsealAtSecond, h1], by decide⟩)).2
    1 (by decide)
    (fun j hj r hr => by
      interval_cases j
      have h0 : Except.ok r = Except.ok (⟨true, 2, 1⟩ : UnsealResponse) :=
        hr.symm.trans rfl
      injection h0 with h1
      rw [h1])
    (fun r hr => by
      have h0 : Except.ok r = Except.ok (⟨false, 2, 2⟩ : UnsealResponse) :=
        hr.symm.trans rfl
      injection h0 with h1
      rw [h1])
  rw [h]
  decide

/-! ## Claim C5 -/

/-- C5: if the first N-1 submissions all return sealed results with
thresholds at most N, the final (Nth) share is submitted: the trace is the
whole share sequence, and the outcome is `failedToUnseal` when the final
result still has sealed=true, success when it has sealed=false. -/
theorem c5_final_share (keys : List String)
    (respond : Nat → Except Unit UnsealResponse) (hne : keys ≠ [])
    (hpass : ∀ j, j < keys.length - 1 → ∃ r, respond j = Except.ok r ∧
      r.sealedFlag = true ∧ r.threshold ≤ keys.length)
    (rl : UnsealResponse) (hl : respond (keys.length - 1) = Except.ok rl) :
    unsealCore keys respond =
      (keys, if rl.sealedFlag then Except.error AttemptError.failedToUnseal
             else Except.ok ()) := by
  have hlen : keys.dropLast.length = keys.length - 1 := List.length_dropLast keys
  have hsf := submitFirst_all_pass keys.length respond keys.dropLast 0
    (fun j hj => by simpa using hpass j (by omega))
  have hfull : keys.dropLast ++ [keys.getLast?.getD ""] = keys := by
    rw [← List.getLastD_eq_getLast?]
    exact dropLast_append_getLastD keys "" hne
  by_cases hsl : rl.sealedFlag
  · simp [unsealCore, hsf, hl, hsl, hfull]
  · simp [unsealCore, hsf, hl, hsl, hfull]

/-- Witness responses: the single share's submission leaves the node
sealed (spec §8, third example). -/
def respStaysSealed : Nat → Except Unit UnsealResponse := fun _ =>
  .ok ⟨true, 1, 0⟩

theorem c5_final_share_witness :
    unsealCore ["a"] respStaysSealed
      = (["a"], Except.error AttemptError.failedToUnseal) := by
  have h := c5_final_share ["a"] respStaysSealed (by decide)
    (fun j hj => by exact absurd hj (by simp))
    ⟨true, 1, 0⟩ rfl
  rw [h]
  decide

/-! ## Helper lemmas on traces of the poll loop -/

lemma countStatus_append (a b : List NetCall) :
    countStatus (a ++ b) = countStatus a + countStatus b :=
  List.countP_append _ _ _

lemma countFetch_append (a b : List NetCall) :
    countFetch (a ++ b) = countFetch a + countFetch b :=
  List.countP_append _ _ _

lemma countSubmit_append (a b : List NetCall) :
    countSubmit (a ++ b) = countSubmit a + countSubmit b :=
  List.countP_append _ _ _

lemma countStatus_workerUnseal (fetch : Except Unit (List String))
    (respond : Nat → Except Unit UnsealResponse) :
    countStatus (workerUnseal fetch respond).1 = 0 := by
  cases fetch with
  | error e => simp [workerUnseal, countStatus, NetCall.isStatus]
  | ok keys =>
    by_cases h : keys.isEmpty
    · simp [workerUnseal, h, countStatus, NetCall.isStatus]
    · simp [workerUnseal, h, countStatus, List.countP_cons, NetCall.isStatus,
        Function.comp]

lemma countFetch_workerUnseal (fetch : Except Unit (List String))
    (respond : Nat → Except Unit UnsealResponse) :
    countFetch (workerUnseal fetch respond).1 = 1 := by
  cases fetch with
  | error e => simp [workerUnseal, countFetch, NetCall.isFetch]
  | ok keys =>
    by_cases h : keys.isEmpty
    · simp [workerUnseal, h, countFetch, NetCall.isFetch]
    · simp [workerUnseal, h, countFetch, List.countP_cons, NetCall.isFetch,
        Function.comp]

lemma countStatus_tickBody (env : WorkerEnv) (t : Nat) :
    countStatus (tickBody env t) = 1 := by
  rcases hs : env.status t with e | s
  · simp [tickBody, hs, countStatus, NetCall.isStatus]
  · cases s with
    | sealed_ =>
      have h2 := countStatus_workerUnseal (env.shares t) (env.respond t)
      simp only [tickBody, hs]
      simp [countStatus, List.countP_cons, NetCall.isStatus] at h2 ⊢
      exact h2
    | ok => simp [tickBody, hs, countStatus, NetCall.isStatus]
    | standby => simp [tickBody, hs, countStatus, NetCall.isStatus]
    | uninitialized => simp [tickBody, hs, countStatus, NetCall.isStatus]
    | other => simp [tickBody, hs, countStatus, NetCall.isStatus]

lemma countFetch_tickBody (env : WorkerEnv) (t : Nat) :
    countFetch (tickBody env t)
      = if env.status t = Except.ok ServerStatus.sealed_ then 1 else 0 := by
  rcases hs : env.status t with e | s
  · simp [tickBody, hs, countFetch, NetCall.isFetch]
  · cases s with
    | sealed_ =>
      have h2 := countFetch_workerUnseal (env.shares t) (env.respond t)
      simp only [tickBody, hs]
      simp [countFetch, List.countP_cons, NetCall.isFetch] at h2 ⊢
      exact h2
    | ok => simp [tickBody, hs, countFetch, NetCall.isFetch]
    | standby => simp [tickBody, hs, countFetch, NetCall.isFetch]
    | uninitialized => simp [tickBody, hs, countFetch, NetCall.isFetch]
    | other => simp [tickBody, hs, countFetch, NetCall.isFetch]

lemma countSubmit_tickBody_empty (env : WorkerEnv) (t : Nat)
    (h : env.shares t = Except.ok []) :
    countSubmit (tickBody env t) = 0 := by
  rcases hs : env.status t with e | s
  · simp [tickBody, hs, countSubmit, NetCall.isSubmit]
  · cases s with
    | sealed_ =>
      simp [tickBody, hs, workerUnseal, h, countSubmit, List.countP_cons,
        NetCall.isSubmit]
    | ok => simp [tickBody, hs, countSubmit, NetCall.isSubmit]
    | standby => simp [tickBody, hs, countSubmit, NetCall.isSubmit]
    | uninitialized => simp [tickBody, hs, countSubmit, NetCall.isSubmit]
    | other => simp [tickBody, hs, countSubmit, NetCall.isSubmit]

/-- With cancellation never signaled, the poll loop processes every tick:
one status check per tick, one provider fetch per `SEALED` observation,
and the loop never breaks. -/
lemma runWorker_no_shutdown (env : WorkerEnv) (choice : Nat → Bool) :
    ∀ (fuel k : Nat),
      (runWorker env (fun _ => false) choice k fuel).2 = false ∧
      countStatus (runWorker env (fun _ => false) choice k fuel).1 = fuel ∧
      countFetch (runWorker env (fun _ => false) choice k fuel).1
        = sealedTicks env k fuel := by
  intro fuel
  induction fuel with
  | zero => intro k; exact ⟨rfl, rfl, rfl⟩
  | succ n ih =>
    intro k
    have hstep : runWorker env (fun _ => false) choice k (n + 1)
        = (tickBody env k ++ (runWorker env (fun _ => false) choice (k + 1) n).1,
           (runWorker env (fun _ => false) choice (k + 1) n).2) := by
      simp [runWorker]
    obtain ⟨h1, h2, h3⟩ := ih (k + 1)
    refine ⟨by rw [hstep]; exact h1, ?_, ?_⟩
    · rw [hstep]
      dsimp only
      rw [countStatus_append, countStatus_tickBody, h2]
      omega
    · rw [hstep]
      dsimp only
      rw [countFetch_append, countFetch_tickBody, h3, sealedTicks]

/-! ## Claim C1 -/

/-- Environment for the C1 counterexample: the node reports `SEALED` on
every tick, the provider returns one share on every fetch. -/
def envTwoSealed : WorkerEnv :=
  ⟨fun _ => .ok .sealed_, fun _ => .ok ["k1"], fun _ _ => .ok ⟨true, 1, 0⟩⟩

/-- C1 counterexample: constructing the shared provider client performs no
share fetch at all (`BitwardenSecret::new` only logs in), while a worker
that observes `SEALED` on two consecutive ticks calls the provider
(`get_secrets`, inside `get_keys`) twice during its run — the share
sequence is fetched again on every unseal attempt, not exactly once at
orchestrator start. -/
theorem c1_refetch_per_attempt :
    countFetch bitwardenNewCalls = 0 ∧
    countFetch (runWorker envTwoSealed (fun _ => false) (fun _ => true) 0 2).1 = 2 := by
  refine ⟨rfl, ?_⟩
  decide

/-- C1 (amended): the shares are not cached: during a worker's run (with
cancellation never signaled, over any number of ticks) the number of
provider fetches equals the number of ticks at which the node reported
`SEALED` — every unseal attempt triggered by observing `Sealed` calls the
provider again.  Construction of the shared client performs no fetch. -/
theorem c1_fetch_count_eq_sealed_ticks (env : WorkerEnv) (choice : Nat → Bool)
    (k fuel : Nat) :
    countFetch bitwardenNewCalls = 0 ∧
    countFetch (runWorker env (fun _ => false) choice k fuel).1
      = sealedTicks env k fuel :=
  ⟨rfl, (runWorker_no_shutdown env choice fuel k).2.2⟩

/-! ## Claim C4 -/

/-- Environment for the C4 counterexample: status checks report
`STANDBY`. -/
def envStandby : WorkerEnv :=
  ⟨fun _ => .ok .standby, fun _ => .ok ["k1"], fun _ _ => .error ()⟩

/-- C4 counterexample: with cancellation already signaled before the first
poll tick (`shut` is `true` from iteration 0 on), but the pseudo-random
`tokio::select!` choice resolving the first race for the (immediately
ready) tick branch, the worker performs a status check — a network call —
before exiting: the trace is not empty. -/
theorem c4_first_tick_race :
    runWorker envStandby (fun _ => true) (fun _ => false) 0 2
      = ([NetCall.statusCheck], true) ∧
    ([NetCall.statusCheck] : List NetCall) ≠ [] := by
  refine ⟨?_, by decide⟩
  decide

/-- C4 (amended): if cancellation is signaled before a worker's first poll
tick, the worker's run loop exits; it performs zero network calls when the
select race of the first iteration — whose tick is immediately ready and
which `tokio::select!` decides pseudo-randomly — resolves for the shutdown
branch, and in any case it performs at most one status check (one poll
cycle) before exiting. -/
theorem c4_cancelled_before_first_tick (env : WorkerEnv) (choice : Nat → Bool)
    (fuel : Nat) (hfuel : 2 ≤ fuel) :
    (runWorker env (fun _ => true) choice 0 fuel).2 = true ∧
    countStatus (runWorker env (fun _ => true) choice 0 fuel).1 ≤ 1 ∧
    (choice 0 = true → (runWorker env (fun _ => true) choice 0 fuel).1 = []) := by
  obtain ⟨m, rfl⟩ : ∃ m, fuel = m + 2 := ⟨fuel - 2, by omega⟩
  by_cases hc : choice 0 = true
  · refine ⟨?_, ?_, fun _ => ?_⟩ <;> simp [runWorker, hc, countStatus]
  · have h1 : runWorker env (fun _ => true) choice 1 (m + 1) = ([], true) := by
      simp [runWorker]
    have hstep : runWorker env (fun _ => true) choice 0 (m + 2)
        = (tickBody env 0 ++ (runWorker env (fun _ => true) choice 1 (m + 1)).1,
           (runWorker env (fun _ => true) choice 1 (m + 1)).2) := by
      simp [runWorker, hc]
    rw [hstep, h1]
    refine ⟨rfl, ?_, fun hcon => absurd hcon hc⟩
    rw [List.append_nil, countStatus_tickBody]

/-- Concrete instantiation witnessing the amended C4. -/
theorem c4_cancelled_before_first_tick_witness :
    (runWorker envStandby (fun _ => true) (fun _ => true) 0 2).2 = true ∧
    countStatus (runWorker envStandby (fun _ => true) (fun _ => true) 0 2).1 ≤ 1 ∧
    ((fun _ => true : Nat → Bool) 0 = true →
      (runWorker envStandby (fun _ => true) (fun _ => true) 0 2).1 = []) :=
  c4_cancelled_before_first_tick envStandby (fun _ => true) 2 (by omega)

/-! ## Claim C6 -/

/-- C6: when the provider returns an empty share sequence, every unseal
attempt fails with the no-keys error after the provider fetch and before
any share submission, and the failure is per-attempt only: the worker's
run loop (cancellation never signaled) does not stop — it keeps performing
one status check per tick and never submits a share. -/
theorem c6_empty_shares (env : WorkerEnv) (choice : Nat → Bool) (k fuel : Nat)
    (hsh : ∀ t, env.shares t = Except.ok []) :
    (∀ t, workerUnseal (env.shares t) (env.respond t)
        = ([NetCall.fetchShares], Except.error AttemptError.noKeys)) ∧
    (runWorker env (fun _ => false) choice k fuel).2 = false ∧
    countSubmit (runWorker env (fun _ => false) choice k fuel).1 = 0 ∧
    countStatus (runWorker env (fun _ => false) choice k fuel).1 = fuel := by
  refine ⟨fun t => by rw [hsh t]; rfl, (runWorker_no_shutdown env choice fuel k).1,
    ?_, (runWorker_no_shutdown env choice fuel k).2.1⟩
  induction fuel generalizing k with
  | zero => rfl
  | succ n ih =>
    have hstep : runWorker env (fun _ => false) choice k (n + 1)
        = (tickBody env k ++ (runWorker env (fun _ => false) choice (k + 1) n).1,
           (runWorker env (fun _ => false) choice (k + 1) n).2) := by
      simp [runWorker]
    rw [hstep]
    dsimp only
    rw [countSubmit_append, countSubmit_tickBody_empty env k (hsh k), ih (k + 1)]

/-- Environment for the C6 witness: always sealed, provider always returns
an empty share list. -/
def envEmptyShares : WorkerEnv :=
  ⟨fun _ => .ok .sealed_, fun _ => .ok [], fun _ _ => .ok ⟨true, 1, 0⟩⟩

theorem c6_empty_shares_witness :
    workerUnseal (envEmptyShares.shares 0) (envEmptyShares.respond 0)
      = ([NetCall.fetchShares], Except.error AttemptError.noKeys) ∧
    (runWorker envEmptyShares (fun _ => false) (fun _ => true) 0 3).2 = false ∧
    countSubmit (runWorker envEmptyShares (fun _ => false) (fun _ => true) 0 3).1 = 0 ∧
    countStatus (runWorker envEmptyShares (fun _ => false) (fun _ => true) 0 3).1 = 3 := by
  have h := c6_empty_shares envEmptyShares (fun _ => true) 0 3 (fun t => rfl)
  exact ⟨h.1 0, h.2.1, h.2.2.1, h.2.2.2⟩

/-! ## Claim C7 -/

/-- C7 counterexample config: host, token and an *empty* secret-id set all
present, one vault node configured. -/
def cfgEmptyIdsWithToken : ExternalConfig :=
  ⟨some [⟨"http://v1:8200"⟩], ⟨some "https://bw", some "tok", some []⟩,
    some 10, ⟨some .info, some false⟩⟩

/-- C7 counterexample: when the bitwarden token is also provided,
conversion of a config whose secret-id set is present but empty succeeds —
the `(Some(host), Some(token), Some(secret_ids))` arm of `try_from` does
not check emptiness, so validation does not fail "regardless of whether
the bitwarden token is also provided". -/
theorem c7_empty_ids_accepted_with_token :
    cfgEmptyIdsWithToken.bitwarden.bw_secret_ids = some [] ∧
    tryFromExternal cfgEmptyIdsWithToken
      = .ok ⟨[⟨"http://v1:8200"⟩], ⟨"https://bw", "tok", []⟩, 10, ⟨.info, false⟩⟩ := by
  exact ⟨rfl, by decide⟩

/-- C7 (amended): an empty-but-present secret-id set is rejected only when
the token is absent: then conversion fails with the "secret ids cannot be
empty" error (provided the vault-node guard passed). -/
theorem c7_empty_ids_error_without_token (cfg : ExternalConfig) (hst : String)
    (hhost : cfg.bitwarden.bw_host = some hst)
    (htok : cfg.bitwarden.bw_token = none)
    (hids : cfg.bitwarden.bw_secret_ids = some [])
    (hn : ¬(cfg.vault_nodes = none ∨ cfg.vault_nodes.getD [] = [])) :
    tryFromExternal cfg
      = .err (.missingBitwardenConfig "bitwarden secret ids cannot be empty") := by
  simp [tryFromExternal, hn, hhost, htok, hids]

/-- C7 witness config: empty secret-id set, token absent. -/
def cfgEmptyIdsNoToken : ExternalConfig :=
  ⟨some [⟨"http://v1:8200"⟩], ⟨some "https://bw", none, some []⟩,
    some 10, ⟨some .info, some false⟩⟩

theorem c7_empty_ids_error_without_token_witness :
    tryFromExternal cfgEmptyIdsNoToken
      = .err (.missingBitwardenConfig "bitwarden secret ids cannot be empty") :=
  c7_empty_ids_error_without_token cfgEmptyIdsNoToken "https://bw" rfl rfl rfl
    (by decide)

/-! ## Claim C9 -/

/-- C9 counterexample config: bitwarden host present, token and secret-id
set both absent, vault nodes present and non-empty. -/
def cfgHostOnly : ExternalConfig :=
  ⟨some [⟨"http://v1:8200"⟩], ⟨some "https://bw", none, none⟩,
    some 10, ⟨some .info, some false⟩⟩

/-- C9 counterexample: with the bitwarden host present but both the token
and the secret-id set absent (and the vault-node guard passing),
`try_from` reaches the `_ => unreachable!()` arm and panics — the match
does not cover all such inputs and conversion is not total. -/
theorem c9_unreachable_arm_panics :
    cfgHostOnly.bitwarden.bw_host = some "https://bw" ∧
    cfgHostOnly.bitwarden.bw_token = none ∧
    cfgHostOnly.bitwarden.bw_secret_ids = none ∧
    tryFromExternal cfgHostOnly = .panic := by
  exact ⟨rfl, rfl, rfl, by decide⟩

/-- C9 (amended): for a config whose bitwarden host is present, conversion
returns `ok` or `err` without panicking provided at least one of the token
and the secret-id set is present and — for the all-present success path —
the check-interval and log fields are present; when token and secret ids
are both absent, the `unreachable!()` arm panics. -/
theorem c9_total_unless_both_absent (cfg : ExternalConfig) (hst : String)
    (hhost : cfg.bitwarden.bw_host = some hst)
    (hsome : cfg.bitwarden.bw_token ≠ none ∨ cfg.bitwarden.bw_secret_ids ≠ none)
    (hci : cfg.check_interval ≠ none)
    (hlv : cfg.log.level ≠ none) (hjs : cfg.log.json ≠ none) :
    tryFromExternal cfg ≠ .panic := by
  by_cases hn : cfg.vault_nodes = none ∨ cfg.vault_nodes.getD [] = []
  · simp [tryFromExternal, hn]
  · rcases htok : cfg.bitwarden.bw_token with _ | tok
    · rcases hids : cfg.bitwarden.bw_secret_ids with _ | ids
      · rw [htok] at hsome
        rw [hids] at hsome
        rcases hsome with h | h <;> exact absurd rfl h
      · by_cases hemp : ids = []
        · simp [tryFromExternal, hn, hhost, htok, hids, hemp]
        · simp [tryFromExternal, hn, hhost, htok, hids, hemp]
    · rcases hids : cfg.bitwarden.bw_secret_ids with _ | ids
      · simp [tryFromExternal, hn, hhost, htok, hids]
      · rcases hcival : cfg.check_interval with _ | ci
        · exact absurd hcival hci
        · rcases hlvval : cfg.log.level with _ | lv
          · exact absurd hlvval hlv
          · rcases hjsval : cfg.log.json with _ | js
            · exact absurd hjsval hjs
            · simp [tryFromExternal, hn, hhost, htok, hids, hcival, hlvval, hjsval]

/-- C9 witness config: host and secret ids present, token absent —
conversion must not panic (it errs). -/
def cfgNoTokenWithIds : ExternalConfig :=
  ⟨some [⟨"http://v1:8200"⟩], ⟨some "https://bw", none, some ["id1"]⟩,
    some 10, ⟨some .info, some false⟩⟩

theorem c9_total_unless_both_absent_witness :
    tryFromExternal cfgNoTokenWithIds ≠ .panic :=
  c9_total_unless_both_absent cfgNoTokenWithIds "https://bw" rfl
    (Or.inr (by decide)) (by decide) (by decide) (by decide)

/-! ## Claim C8 -/

lemma buildWorkers_first_error (construct : String → Except Unit Unit) :
    ∀ (hosts : List String) (i : Nat) (e : Unit), i < hosts.length →
    construct (hosts.getD i "") = .error e →
    (∀ j, j < i → construct (hosts.getD j "") = .ok ()) →
    buildWorkers construct hosts = .error e := by
  intro hosts
  induction hosts with
  | nil => intro i e hi; exact absurd hi (by simp)
  | cons h rest ih =>
    intro i e hi hfail hfirst
    cases i with
    | zero =>
      simp at hfail
      simp [buildWorkers, hfail]
    | succ q =>
      have hok0 : construct h = .ok () := hfirst 0 (Nat.succ_pos q)
      have hrec := ih q e (by simpa using hi) (by simpa using hfail)
        (fun j hj => by simpa using hfirst (j + 1) (by omega))
      simp [buildWorkers, hok0, hrec]

/-- C8: if the construction of some worker's node client fails — at the
first failing node index i, all earlier constructions succeeding — then
`unseal(cfg)` returns that first construction error and no worker's run
loop is started: the list of run workers is empty. -/
theorem c8_construction_failure_aborts_all (cfg : InternalConfig) (env : ExtEnv)
    (fuel : Nat) (i : Nat) (e : Unit)
    (hi : i < cfg.vault_nodes.length)
    (hfail : env.construct ((cfg.vault_nodes.map VaultNode.host).getD i "")
      = .error e)
    (hfirst : ∀ j, j < i →
      env.construct ((cfg.vault_nodes.map VaultNode.host).getD j "") = .ok ()) :
    unsealOrch cfg env fuel = ([], Except.error e) := by
  have hb := buildWorkers_first_error env.construct (cfg.vault_nodes.map VaultNode.host)
    i e (by simpa using hi) hfail hfirst
  simp [unsealOrch, hb]

/-- C8 witness: two nodes, the second construction fails. -/
def cfgTwoNodes : InternalConfig :=
  ⟨[⟨"http://v1"⟩, ⟨"http://v2"⟩], ⟨"https://bw", "tok", ["id1"]⟩, 10, ⟨.info, false⟩⟩

/-- C8 witness environment: node-client construction fails for the second
host only. -/
def envSecondFails : ExtEnv :=
  ⟨fun h => if h = "http://v2" then .error () else .ok (),
    fun _ _ _ => .ok ["k1"], fun _ _ => .ok .standby,
    fun _ _ _ => .ok ⟨true, 1, 0⟩, fun _ _ => true, fun _ => false⟩

theorem c8_construction_failure_aborts_all_witness :
    unsealOrch cfgTwoNodes envSecondFails 5 = ([], Except.error ()) := by
  have h := c8_construction_failure_aborts_all cfgTwoNodes envSecondFails 5 1 ()
    (by decide) (by decide)
    (fun j hj => by
      interval_cases j
      decide)
  exact h

/-! ## Claim C10 -/

/-- C10: the configured bitwarden host has no effect on the behaviour of
`unseal(cfg)`: the provider client is built from only the token and the
secret ids (`ClientSettings::default()` ignores the configured host), so
two runs whose configurations agree on the vault nodes, the token and the
secret ids — in particular two configurations differing only in the
bitwarden host — produce the same provider client and identical behaviour
in every environment. -/
theorem c10_bitwarden_host_irrelevant (c1 c2 : InternalConfig)
    (hn : c1.vault_nodes = c2.vault_nodes)
    (ht : c1.bitwarden.token = c2.bitwarden.token)
    (hs : c1.bitwarden.secret_ids = c2.bitwarden.secret_ids) :
    bitwardenNew c1.bitwarden.token c1.bitwarden.secret_ids
      = bitwardenNew c2.bitwarden.token c2.bitwarden.secret_ids ∧
    ∀ (env : ExtEnv) (fuel : Nat), unsealOrch c1 env fuel = unsealOrch c2 env fuel := by
  constructor
  · rw [ht, hs]
  · intro env fuel
    simp only [unsealOrch, bitwardenNew, hn, ht, hs]

/-- C10 witness configs: identical except for the bitwarden host. -/
def cfgHostA : InternalConfig :=
  ⟨[⟨"http://v1"⟩], ⟨"https://bw-one", "tok", ["id1"]⟩, 10, ⟨.info, false⟩⟩

def cfgHostB : InternalConfig :=
  ⟨[⟨"http://v1"⟩], ⟨"https://bw-two", "tok", ["id1"]⟩, 10, ⟨.info, false⟩⟩

/-- C10 witness environment. -/
def envAllOk : ExtEnv :=
  ⟨fun _ => .ok (), fun _ _ _ => .ok ["k1"], fun _ _ => .ok .sealed_,
    fun _ _ _ => .ok ⟨false, 1, 1⟩, fun _ _ => true, fun _ => false⟩

theorem c10_bitwarden_host_irrelevant_witness :
    cfgHostA.bitwarden.host ≠ cfgHostB.bitwarden.host ∧
    unsealOrch cfgHostA envAllOk 2 = unsealOrch cfgHostB envAllOk 2 :=
  ⟨by decide,
    (c10_bitwarden_host_irrelevant cfgHostA cfgHostB rfl rfl rfl).2 envAllOk 2⟩

end VaultUnseal
